import Mathlib

/-!
Shallow embedding of the Adrenale5 tournament schedule engine:
the bracket graph builder, winner resolver, team resolver, day-gate
state machine, time arithmetic, reset operation and the score submit
endpoint, translated from src/schedule.js and the localStorage variant
of the same module.

Modelling conventions:
- JavaScript numbers that can reach a score comparison are modelled as
  rationals for finite values plus a distinguished non-finite value
  (NaN or an infinity); the Number() coercion becomes `toNum`.
- A thrown exception (bad time format) becomes `none`.
- The mutable score ledger is a total map from game id to an optional
  score record.
- String trimming and the clock regex are modelled on ASCII whitespace,
  the fragment the program actually receives.
-/

/-- A score entry as stored in the ledger: the localStorage variant keeps
strings (the input layer strips every character that is not a digit, so
only digit strings and the empty string occur), the API variant keeps
numbers. `enan` stands for any numeric value that is not finite. -/
inductive Entry where
  | estr : String → Entry
  | enum : ℚ → Entry
  | enan : Entry
  deriving DecidableEq

/-- Characters dropped by trimming and matched by the whitespace class of
the clock regex (ASCII fragment of the JavaScript classes). -/
def trimChars (l : List Char) : List Char :=
  ((l.dropWhile Char.isWhitespace).reverse.dropWhile Char.isWhitespace).reverse

/-- Model of String.prototype.trim. -/
def jsTrim (s : String) : String :=
  ⟨trimChars s.data⟩

/-- Value of a list of decimal digits, most significant first. -/
def digitsToNat (l : List Char) : Nat :=
  l.foldl (fun acc c => acc * 10 + (c.toNat - 48)) 0

/-- Model of the Number() coercion on the strings this program stores:
whitespace is trimmed, the empty string coerces to 0, digit strings
coerce to their value, anything else to NaN (`none`). -/
def jsStrToNum (s : String) : Option ℚ :=
  let t := trimChars s.data
  if t = [] then some 0
  else if t.all Char.isDigit then some (digitsToNat t)
  else none

/-- Number() applied to a ledger entry; `none` means not finite. -/
def toNum : Entry → Option ℚ
  | .estr s => jsStrToNum s
  | .enum q => some q
  | .enan => none

/-- A score record: the two entries plus the cached team names copied
onto the record when it was written (schedule.js renderGames). -/
structure ScoreRec where
  teamA : String
  teamB : String
  a : Entry
  b : Entry
  deriving DecidableEq

/-- The mutable score ledger (state.scores in the source). -/
structure State where
  scores : String → Option ScoreRec

/-- getWinner from schedule.js: null when the record is absent, when a
coerced entry is not finite, or on a tie; otherwise the team name cached
on the record for the higher-scoring side. -/
def getWinner (gameId : String) (st : State) : Option String :=
  match st.scores gameId with
  | none => none
  | some s =>
    match toNum s.a, toNum s.b with
    | some a, some b =>
      if a = b then none
      else if b < a then some s.teamA else some s.teamB
    | _, _ => none

/-- pad2 from schedule.js (String(n).padStart(2, "0")). -/
def pad2 (n : Nat) : String :=
  let s := toString n
  if s.length < 2 then "0" ++ s else s

/-- The regex of parseTime12h applied to the trimmed input: one or two
digits, a colon, exactly two digits, optional whitespace, then a
case-insensitive meridiem, anchored at both ends. Yields the hour
digits, the minute digits and whether the meridiem is PM. -/
def matchClock (s : String) : Option (Nat × Nat × Bool) :=
  if ((trimChars s.data).takeWhile Char.isDigit).length = 0 ∨
      2 < ((trimChars s.data).takeWhile Char.isDigit).length then none
  else
    match (trimChars s.data).dropWhile Char.isDigit with
    | ':' :: c1 :: c2 :: r3 =>
      if c1.isDigit ∧ c2.isDigit then
        match r3.dropWhile Char.isWhitespace with
        | [x, y] =>
          if y = 'M' ∨ y = 'm' then
            if x = 'A' ∨ x = 'a' then
              some (digitsToNat ((trimChars s.data).takeWhile Char.isDigit),
                digitsToNat [c1, c2], false)
            else if x = 'P' ∨ x = 'p' then
              some (digitsToNat ((trimChars s.data).takeWhile Char.isDigit),
                digitsToNat [c1, c2], true)
            else none
          else none
        | _ => none
      else none
    | _ => none

/-- parseTime12h from schedule.js; `none` models the thrown error. -/
def parseTime12h (s : String) : Option (Nat × Nat) :=
  match matchClock s with
  | none => none
  | some (h12, mi, pm) =>
    let h := if pm ∧ h12 ≠ 12 then h12 + 12
             else if ¬ pm ∧ h12 = 12 then 0
             else h12
    some (h, mi)

/-- formatTime12h from schedule.js. -/
def formatTime12h (h24 mi : Nat) : String :=
  let ap := if 12 ≤ h24 then "PM" else "AM"
  let h0 := h24 % 12
  let h := if h0 = 0 then 12 else h0
  toString h ++ ":" ++ pad2 mi ++ " " ++ ap

/-- addMinutes from schedule.js; propagates a parse failure. -/
def addMinutes (timeStr : String) (minsToAdd : Nat) : Option String :=
  match parseTime12h timeStr with
  | none => none
  | some (h, mi) =>
    let total := h * 60 + mi + minsToAdd
    some (formatTime12h (total / 60 % 24) (total % 60))

/-- A game of the bracket graph. Day 1 games carry team names (possibly
the empty string); later rounds leave them absent, which is falsy in the
source just like the empty string. -/
structure Game where
  id : String
  day : String
  timeSlot : String
  hour : String
  court : String
  teamA : Option String
  teamB : Option String
  dependsOn : List String
  label : Option String
  deriving DecidableEq

/-- The configuration record handed to buildGames; absent fields model
absent object properties. -/
structure Config where
  courtName : Option String := none
  day1MorningStart : Option String := none
  day1EveningStart : Option String := none
  day2MorningStart : Option String := none
  day2EveningStart : Option String := none
  day3MorningStart : Option String := none
  day3EveningStart : Option String := none

/-- The JavaScript `value || dflt` idiom on an optional string: absent
and empty values fall back to the default. -/
def strOr (v : Option String) (dflt : String) : String :=
  match v with
  | some s => if s = "" then dflt else s
  | none => dflt

/-- Body of the Day 1 loop of buildGames for index i (0 to 7). -/
def mkDay1Game (teams : List String) (court d1m d1e : String) (i : Nat) :
    Option Game :=
  match addMinutes (if i < 4 then d1m else d1e)
      ((if i < 4 then i else i - 4) * 60) with
  | none => none
  | some hr => some
      { id := "D1G" ++ toString (i + 1)
        day := "Day 1"
        timeSlot := if i < 4 then "Morning" else "Evening"
        hour := hr
        court := court
        teamA := teams[i * 2]?
        teamB := teams[i * 2 + 1]?
        dependsOn := []
        label := none }

/-- The value returned by buildGames: the three day lists. -/
structure Games where
  day1 : List Game
  day2 : List Game
  day3 : List Game
  deriving DecidableEq

/-- The `all` field of the buildGames result. -/
def Games.all (G : Games) : List Game :=
  G.day1 ++ G.day2 ++ G.day3

/-- buildGames from schedule.js. The gap between successive games in one
half-day is the fixed 60 minutes of the source. -/
def buildGames (teams : List String) (config : Config) : Option Games := do
  let court := strOr config.courtName "Dolphins Court"
  let d1m := strOr config.day1MorningStart "8:00 AM"
  let d1e := strOr config.day1EveningStart "4:00 PM"
  let d2m := strOr config.day2MorningStart "9:00 AM"
  let d2e := strOr config.day2EveningStart "5:00 PM"
  let d3m := strOr config.day3MorningStart "10:00 AM"
  let d3e := strOr config.day3EveningStart "5:00 PM"
  let day1 ← (List.range 8).mapM (mkDay1Game teams court d1m d1e)
  let h21 ← addMinutes d2m 0
  let h22 ← addMinutes d2m 60
  let h23 ← addMinutes d2e 0
  let h24 ← addMinutes d2e 60
  let day2 : List Game := [
    { id := "D2G1", day := "Day 2", timeSlot := "Morning", hour := h21,
      court := court, teamA := none, teamB := none,
      dependsOn := ["D1G1", "D1G2"], label := none },
    { id := "D2G2", day := "Day 2", timeSlot := "Morning", hour := h22,
      court := court, teamA := none, teamB := none,
      dependsOn := ["D1G3", "D1G4"], label := none },
    { id := "D2G3", day := "Day 2", timeSlot := "Evening", hour := h23,
      court := court, teamA := none, teamB := none,
      dependsOn := ["D1G5", "D1G6"], label := none },
    { id := "D2G4", day := "Day 2", timeSlot := "Evening", hour := h24,
      court := court, teamA := none, teamB := none,
      dependsOn := ["D1G7", "D1G8"], label := none }]
  let h31 ← addMinutes d3m 0
  let h32 ← addMinutes d3e 0
  let h33 ← addMinutes d3e 60
  let day3 : List Game := [
    { id := "D3SF1", day := "Day 3", timeSlot := "Morning", hour := h31,
      court := court, teamA := none, teamB := none,
      dependsOn := ["D2G1", "D2G2"], label := some "Semifinal 1" },
    { id := "D3SF2", day := "Day 3", timeSlot := "Evening", hour := h32,
      court := court, teamA := none, teamB := none,
      dependsOn := ["D2G3", "D2G4"], label := some "Semifinal 2" },
    { id := "D3F", day := "Day 3", timeSlot := "Evening", hour := h33,
      court := court, teamA := none, teamB := none,
      dependsOn := ["D3SF1", "D3SF2"], label := some "Championship Game" }]
  pure { day1 := day1, day2 := day2, day3 := day3 }

/-- getTeamsFromAdmin: pad to 16 slots, replacing absent or empty slots
by a generated placeholder before trimming, exactly as the source
expression (adminTeams[i] || placeholder).trim(). -/
def getTeamsFromAdmin (adminTeams : List String) : List String :=
  (List.range 16).map fun i =>
    jsTrim (match adminTeams[i]? with
      | some s => if s = "" then "Team " ++ toString (i + 1) else s
      | none => "Team " ++ toString (i + 1))

/-- Truthiness of an optional string: absent and empty are falsy. -/
def truthy : Option String → Bool
  | none => false
  | some s => ! (s == "")

/-- The JavaScript `w || alt` idiom where w is a nullable string. -/
def jsOrStr (w : Option String) (alt : String) : String :=
  match w with
  | some s => if s == "" then alt else s
  | none => alt

/-- resolveTeamsForGame from schedule.js, returning the pair of opponent
names. -/
def resolveTeamsForGame (game : Game) (st : State) : String × String :=
  if truthy game.teamA && truthy game.teamB then
    (game.teamA.getD "", game.teamB.getD "")
  else
    let g1 := game.dependsOn[0]?
    let g2 := game.dependsOn[1]?
    let w1 := match g1 with
      | some g => getWinner g st
      | none => none
    let w2 := match g2 with
      | some g => getWinner g st
      | none => none
    (jsOrStr w1 (match g1 with
        | some g => "Winner " ++ g
        | none => "TBD"),
     jsOrStr w2 (match g2 with
        | some g => "Winner " ++ g
        | none => "TBD"))

/-- Completeness of one score record: both entries coerce to finite
numbers that differ (the body of the predicate inside isDayComplete). -/
def recComplete (s : ScoreRec) : Bool :=
  match toNum s.a, toNum s.b with
  | some a, some b => a != b
  | _, _ => false

/-- Completeness of one game under a ledger. -/
def gameComplete (gid : String) (st : State) : Bool :=
  match st.scores gid with
  | none => false
  | some s => recComplete s

/-- isDayComplete from schedule.js. -/
def isDayComplete (dayGames : List Game) (st : State) : Bool :=
  dayGames.all fun g => gameComplete g.id st

/-- The lock state of the three days. -/
structure LockedDays where
  day1 : Bool
  day2 : Bool
  day3 : Bool
  deriving DecidableEq

/-- computeLockedDays from schedule.js: Day 1 never locks, Day 2 locks
until Day 1 is complete, Day 3 locks until Day 2 is complete. -/
def computeLockedDays (G : Games) (st : State) : LockedDays :=
  { day1 := false
    day2 := ! isDayComplete G.day1 st
    day3 := ! isDayComplete G.day2 st }

/-- Pointwise ledger update: used to model entering, changing or
clearing the score record of one game. -/
def setScore (st : State) (gid : String) (r : Option ScoreRec) : State :=
  { scores := fun g => if g = gid then r else st.scores g }

/-- A session: the immutable bracket built once, plus the ledger. -/
structure Session where
  games : Games
  state : State

/-- The resetScores click handler of the localStorage variant: the
stored ledger is removed and the in-memory scores become the fresh
empty mapping; the bracket value is not touched. -/
def resetScores (sess : Session) : Session :=
  { games := sess.games, state := { scores := fun _ => none } }

/-- Outcome of the POST branch of the scores endpoint, restricted to the
validation it performs after authorization: either a 400 with the given
message, or the upsert payload that reaches the ledger. -/
inductive SubmitResult where
  | badRequest : String → SubmitResult
  | ok : String → ℚ → ℚ → SubmitResult
  deriving DecidableEq

/-- The request body fields the POST branch reads. -/
structure SubmitReq where
  gameId : Option String
  a : Entry
  b : Entry

/-- The validation chain of the POST branch of the scores endpoint
(handler in the API source): missing or empty gameId is rejected, then
both values are coerced with Number() and rejected when not finite,
then equal values are rejected; everything else is upserted. -/
def handlerPost (req : SubmitReq) : SubmitResult :=
  match req.gameId with
  | none => .badRequest "Missing gameId"
  | some gid =>
    if gid == "" then .badRequest "Missing gameId"
    else
      match toNum req.a, toNum req.b with
      | some aN, some bN =>
        if aN = bN then .badRequest "No ties allowed" else .ok gid aN bN
      | _, _ => .badRequest "Scores must be numbers"

/-! ### Characterization of buildGames -/

/-- The clock string addMinutes produces from a parsed base time. -/
def clockAfter (p : Nat × Nat) (k : Nat) : String :=
  formatTime12h ((p.1 * 60 + p.2 + k) / 60 % 24) ((p.1 * 60 + p.2 + k) % 60)

/-- The Day 1 game at loop index i once the two base times are parsed. -/
def day1GameAt (teams : List String) (court : String) (p1 p2 : Nat × Nat)
    (i : Nat) : Game :=
  { id := "D1G" ++ toString (i + 1)
    day := "Day 1"
    timeSlot := if i < 4 then "Morning" else "Evening"
    hour := clockAfter (if i < 4 then p1 else p2) ((if i < 4 then i else i - 4) * 60)
    court := court
    teamA := teams[i * 2]?
    teamB := teams[i * 2 + 1]?
    dependsOn := []
    label := none }

/-- The bracket buildGames produces once all six base times are parsed. -/
def bracketOf (teams : List String) (court : String)
    (p1 p2 p3 p4 p5 p6 : Nat × Nat) : Games :=
  { day1 := (List.range 8).map (day1GameAt teams court p1 p2)
    day2 := [
      { id := "D2G1", day := "Day 2", timeSlot := "Morning",
        hour := clockAfter p3 0, court := court, teamA := none, teamB := none,
        dependsOn := ["D1G1", "D1G2"], label := none },
      { id := "D2G2", day := "Day 2", timeSlot := "Morning",
        hour := clockAfter p3 60, court := court, teamA := none, teamB := none,
        dependsOn := ["D1G3", "D1G4"], label := none },
      { id := "D2G3", day := "Day 2", timeSlot := "Evening",
        hour := clockAfter p4 0, court := court, teamA := none, teamB := none,
        dependsOn := ["D1G5", "D1G6"], label := none },
      { id := "D2G4", day := "Day 2", timeSlot := "Evening",
        hour := clockAfter p4 60, court := court, teamA := none, teamB := none,
        dependsOn := ["D1G7", "D1G8"], label := none }]
    day3 := [
      { id := "D3SF1", day := "Day 3", timeSlot := "Morning",
        hour := clockAfter p5 0, court := court, teamA := none, teamB := none,
        dependsOn := ["D2G1", "D2G2"], label := some "Semifinal 1" },
      { id := "D3SF2", day := "Day 3", timeSlot := "Evening",
        hour := clockAfter p6 0, court := court, teamA := none, teamB := none,
        dependsOn := ["D2G3", "D2G4"], label := some "Semifinal 2" },
      { id := "D3F", day := "Day 3", timeSlot := "Evening",
        hour := clockAfter p6 60, court := court, teamA := none, teamB := none,
        dependsOn := ["D3SF1", "D3SF2"], label := some "Championship Game" }] }

lemma addMinutes_eq {t : String} {p : Nat × Nat}
    (hp : parseTime12h t = some p) (k : Nat) :
    addMinutes t k = some (clockAfter p k) := by
  cases p
  simp [addMinutes, hp, clockAfter]

lemma addMinutes_none {t : String} (hp : parseTime12h t = none) (k : Nat) :
    addMinutes t k = none := by
  simp [addMinutes, hp]

lemma mkDay1Game_eq {d1m d1e : String} {p1 p2 : Nat × Nat}
    (teams : List String) (court : String)
    (hp1 : parseTime12h d1m = some p1) (hp2 : parseTime12h d1e = some p2)
    (i : Nat) :
    mkDay1Game teams court d1m d1e i = some (day1GameAt teams court p1 p2 i) := by
  by_cases h : i < 4 <;>
    simp [mkDay1Game, day1GameAt, h, addMinutes_eq hp1, addMinutes_eq hp2]

lemma mapM_option_of_map {α β : Type} (f : α → Option β) (g : α → β)
    (h : ∀ a, f a = some (g a)) :
    ∀ l : List α, l.mapM f = some (l.map g) := by
  intro l
  rw [← List.mapM'_eq_mapM]
  induction l with
  | nil => rfl
  | cons x xs ih => simp [h, ih]

lemma range8 : List.range 8 = [0, 1, 2, 3, 4, 5, 6, 7] := by decide

lemma buildGames_eq {cfg : Config} {p1 p2 p3 p4 p5 p6 : Nat × Nat}
    (teams : List String)
    (hp1 : parseTime12h (strOr cfg.day1MorningStart "8:00 AM") = some p1)
    (hp2 : parseTime12h (strOr cfg.day1EveningStart "4:00 PM") = some p2)
    (hp3 : parseTime12h (strOr cfg.day2MorningStart "9:00 AM") = some p3)
    (hp4 : parseTime12h (strOr cfg.day2EveningStart "5:00 PM") = some p4)
    (hp5 : parseTime12h (strOr cfg.day3MorningStart "10:00 AM") = some p5)
    (hp6 : parseTime12h (strOr cfg.day3EveningStart "5:00 PM") = some p6) :
    buildGames teams cfg =
      some (bracketOf teams (strOr cfg.courtName "Dolphins Court")
        p1 p2 p3 p4 p5 p6) := by
  rw [buildGames,
    mapM_option_of_map _ _ (mkDay1Game_eq teams _ hp1 hp2) (List.range 8)]
  simp [addMinutes_eq hp3, addMinutes_eq hp4, addMinutes_eq hp5,
    addMinutes_eq hp6, bracketOf]

lemma buildGames_some_inv {teams : List String} {cfg : Config} {G : Games}
    (hG : buildGames teams cfg = some G) :
    ∃ p1 p2 p3 p4 p5 p6 : Nat × Nat,
      parseTime12h (strOr cfg.day1MorningStart "8:00 AM") = some p1 ∧
      parseTime12h (strOr cfg.day1EveningStart "4:00 PM") = some p2 ∧
      parseTime12h (strOr cfg.day2MorningStart "9:00 AM") = some p3 ∧
      parseTime12h (strOr cfg.day2EveningStart "5:00 PM") = some p4 ∧
      parseTime12h (strOr cfg.day3MorningStart "10:00 AM") = some p5 ∧
      parseTime12h (strOr cfg.day3EveningStart "5:00 PM") = some p6 ∧
      G = bracketOf teams (strOr cfg.courtName "Dolphins Court")
        p1 p2 p3 p4 p5 p6 := by
  cases hp1 : parseTime12h (strOr cfg.day1MorningStart "8:00 AM") with
  | none =>
    rw [buildGames, ← List.mapM'_eq_mapM, range8] at hG
    simp [mkDay1Game, addMinutes_none hp1] at hG
  | some p1 =>
  cases hp2 : parseTime12h (strOr cfg.day1EveningStart "4:00 PM") with
  | none =>
    rw [buildGames, ← List.mapM'_eq_mapM, range8] at hG
    simp [mkDay1Game, addMinutes_eq hp1, addMinutes_none hp2] at hG
  | some p2 =>
  cases hp3 : parseTime12h (strOr cfg.day2MorningStart "9:00 AM") with
  | none =>
    rw [buildGames,
      mapM_option_of_map _ _ (mkDay1Game_eq teams _ hp1 hp2) (List.range 8)] at hG
    simp [addMinutes_none hp3] at hG
  | some p3 =>
  cases hp4 : parseTime12h (strOr cfg.day2EveningStart "5:00 PM") with
  | none =>
    rw [buildGames,
      mapM_option_of_map _ _ (mkDay1Game_eq teams _ hp1 hp2) (List.range 8)] at hG
    simp [addMinutes_eq hp3, addMinutes_none hp4] at hG
  | some p4 =>
  cases hp5 : parseTime12h (strOr cfg.day3MorningStart "10:00 AM") with
  | none =>
    rw [buildGames,
      mapM_option_of_map _ _ (mkDay1Game_eq teams _ hp1 hp2) (List.range 8)] at hG
    simp [addMinutes_eq hp3, addMinutes_eq hp4, addMinutes_none hp5] at hG
  | some p5 =>
  cases hp6 : parseTime12h (strOr cfg.day3EveningStart "5:00 PM") with
  | none =>
    rw [buildGames,
      mapM_option_of_map _ _ (mkDay1Game_eq teams _ hp1 hp2) (List.range 8)] at hG
    simp [addMinutes_eq hp3, addMinutes_eq hp4, addMinutes_eq hp5,
      addMinutes_none hp6] at hG
  | some p6 =>
    rw [buildGames_eq teams hp1 hp2 hp3 hp4 hp5 hp6] at hG
    exact ⟨p1, p2, p3, p4, p5, p6, rfl, rfl, rfl, rfl, rfl, rfl,
      (Option.some.inj hG).symm⟩

/-! ### Claim C2: fixed 15-game topology -/

/-- C2. For every list of 16 team names and every configuration whose six
effective start times parse, buildGames succeeds and produces exactly 15
games — 8 on Day 1, 4 on Day 2, 2 Day-3 semifinals and 1 Day-3 final —
with the fixed dependency topology (Day-2 game k depends on Day-1 games
2k-1 and 2k, semifinal 1 on Day-2 games 1 and 2, semifinal 2 on Day-2
games 3 and 4, the final on both semifinals), independent of the team
names supplied. -/
theorem buildGames_topology (teams : List String) (cfg : Config)
    (_h16 : teams.length = 16)
    (p1 p2 p3 p4 p5 p6 : Nat × Nat)
    (hp1 : parseTime12h (strOr cfg.day1MorningStart "8:00 AM") = some p1)
    (hp2 : parseTime12h (strOr cfg.day1EveningStart "4:00 PM") = some p2)
    (hp3 : parseTime12h (strOr cfg.day2MorningStart "9:00 AM") = some p3)
    (hp4 : parseTime12h (strOr cfg.day2EveningStart "5:00 PM") = some p4)
    (hp5 : parseTime12h (strOr cfg.day3MorningStart "10:00 AM") = some p5)
    (hp6 : parseTime12h (strOr cfg.day3EveningStart "5:00 PM") = some p6) :
    ∃ G : Games, buildGames teams cfg = some G ∧
      G.all.length = 15 ∧
      G.day1.length = 8 ∧ G.day2.length = 4 ∧ G.day3.length = 3 ∧
      G.day1.map (fun g => (g.id, g.day, g.dependsOn)) =
        [("D1G1", "Day 1", []), ("D1G2", "Day 1", []), ("D1G3", "Day 1", []),
         ("D1G4", "Day 1", []), ("D1G5", "Day 1", []), ("D1G6", "Day 1", []),
         ("D1G7", "Day 1", []), ("D1G8", "Day 1", [])] ∧
      G.day2.map (fun g => (g.id, g.day, g.dependsOn)) =
        [("D2G1", "Day 2", ["D1G1", "D1G2"]),
         ("D2G2", "Day 2", ["D1G3", "D1G4"]),
         ("D2G3", "Day 2", ["D1G5", "D1G6"]),
         ("D2G4", "Day 2", ["D1G7", "D1G8"])] ∧
      G.day3.map (fun g => (g.id, g.day, g.label, g.dependsOn)) =
        [("D3SF1", "Day 3", some "Semifinal 1", ["D2G1", "D2G2"]),
         ("D3SF2", "Day 3", some "Semifinal 2", ["D2G3", "D2G4"]),
         ("D3F", "Day 3", some "Championship Game", ["D3SF1", "D3SF2"])] := by
  refine ⟨_, buildGames_eq teams hp1 hp2 hp3 hp4 hp5 hp6, ?_, ?_, ?_, ?_, ?_, ?_, ?_⟩ <;>
    (simp [bracketOf, day1GameAt, Games.all, range8]; try decide)

/-- Witness for C2 at the default teams and default configuration. -/
theorem buildGames_topology_witness :
    (getTeamsFromAdmin []).length = 16 ∧
    ∃ G : Games, buildGames (getTeamsFromAdmin []) {} = some G ∧
      G.all.length = 15 := by
  refine ⟨by decide, ?_⟩
  obtain ⟨G, hG, hlen, -⟩ :=
    buildGames_topology (getTeamsFromAdmin []) {} (by decide)
      (8, 0) (16, 0) (9, 0) (17, 0) (10, 0) (17, 0) rfl rfl rfl rfl rfl rfl
  exact ⟨G, hG, hlen⟩

/-! ### Claim C1: the winner resolver reads only the score record -/

/-- C1. For every game id and ledger, getWinner is undecided (none) when
no record exists, when either recorded entry does not coerce to a finite
number, or when the two coerced values are equal; otherwise it returns
the team name cached on the record itself — teamA when entry a is
greater, teamB when entry b is greater. The function never consults the
bracket graph, so the result is independent of the names currently
attached to the game. -/
theorem getWinner_record_only (gid : String) (st : State) :
    (st.scores gid = none → getWinner gid st = none) ∧
    ∀ r : ScoreRec, st.scores gid = some r →
      ((toNum r.a = none ∨ toNum r.b = none) → getWinner gid st = none) ∧
      ∀ a b : ℚ, toNum r.a = some a → toNum r.b = some b →
        (a = b → getWinner gid st = none) ∧
        (b < a → getWinner gid st = some r.teamA) ∧
        (a < b → getWinner gid st = some r.teamB) := by
  refine ⟨fun h => by simp [getWinner, h], fun r hr => ⟨?_, ?_⟩⟩
  · rintro (ha | hb)
    · simp [getWinner, hr, ha]
    · cases hA : toNum r.a <;> simp [getWinner, hr, hA, hb]
  · intro a b ha hb
    refine ⟨fun h => ?_, fun h => ?_, fun h => ?_⟩
    · simp [getWinner, hr, ha, hb, h]
    · simp [getWinner, hr, ha, hb, ne_of_gt h, h]
    · simp [getWinner, hr, ha, hb, ne_of_lt h, h.not_lt]

/-- A ledger holding a single decided record, for the C1 witness. -/
def stC1 : State :=
  { scores := fun gid =>
      if gid = "D3F" then
        some { teamA := "Lakers", teamB := "Heat",
               a := .estr "10", b := .estr "3" }
      else none }

/-- Witness for C1: a 10 to 3 record makes the cached teamA the winner. -/
theorem getWinner_record_only_witness :
    toNum (Entry.estr "10") = some 10 ∧ toNum (Entry.estr "3") = some 3 ∧
    getWinner "D3F" stC1 = some "Lakers" := by
  have h := (getWinner_record_only "D3F" stC1).2
    { teamA := "Lakers", teamB := "Heat", a := .estr "10", b := .estr "3" }
    (by decide)
  exact ⟨by decide, by decide,
    (h.2 10 3 (by decide) (by decide)).2.1 (by norm_num)⟩

/-! ### Claim C3: the day gates -/

/-- Completeness of a game in the words of the spec: its score record
exists and both entries coerce to finite numbers that are not equal. -/
def CompleteSpec (gid : String) (st : State) : Prop :=
  ∃ (r : ScoreRec) (a b : ℚ), st.scores gid = some r ∧
    toNum r.a = some a ∧ toNum r.b = some b ∧ a ≠ b

lemma gameComplete_iff (gid : String) (st : State) :
    gameComplete gid st = true ↔ CompleteSpec gid st := by
  unfold gameComplete recComplete CompleteSpec
  cases h : st.scores gid with
  | none => simp
  | some r =>
    cases hA : toNum r.a with
    | none => simp [hA]
    | some a =>
      cases hB : toNum r.b with
      | none => simp [hA, hB]
      | some b => simp [hA, hB, bne_iff_ne]

/-- C3. For every built bracket and every ledger: Day 1 is never locked;
Day 2 is open exactly when all 8 Day-1 games are complete; Day 3 is open
exactly when all 4 Day-2 games are complete, completeness being the
CompleteSpec rule. -/
theorem computeLockedDays_gates (teams : List String) (cfg : Config)
    (G : Games) (hG : buildGames teams cfg = some G) (st : State) :
    (computeLockedDays G st).day1 = false ∧
    ((computeLockedDays G st).day2 = false ↔
      ∀ gid ∈ (["D1G1", "D1G2", "D1G3", "D1G4", "D1G5", "D1G6", "D1G7",
        "D1G8"] : List String), CompleteSpec gid st) ∧
    ((computeLockedDays G st).day3 = false ↔
      ∀ gid ∈ (["D2G1", "D2G2", "D2G3", "D2G4"] : List String),
        CompleteSpec gid st) := by
  obtain ⟨p1, p2, p3, p4, p5, p6, -, -, -, -, -, -, rfl⟩ := buildGames_some_inv hG
  refine ⟨rfl, ?_, ?_⟩
  · simp [computeLockedDays, isDayComplete, bracketOf, day1GameAt, range8,
      gameComplete_iff]
    exact Iff.rfl
  · simp [computeLockedDays, isDayComplete, bracketOf, gameComplete_iff]

/-- The bracket built from the default teams and default configuration. -/
def bracket0 : Games :=
  (buildGames (getTeamsFromAdmin []) {}).getD { day1 := [], day2 := [], day3 := [] }

lemma bracket0_eq : buildGames (getTeamsFromAdmin []) {} = some bracket0 := by
  decide

/-- A decided record used to fill ledgers in witnesses. -/
def rcWon : ScoreRec :=
  { teamA := "A", teamB := "B", a := .estr "2", b := .estr "1" }

/-- A ledger in which all Day 1 and Day 2 games are decided. -/
def stFull : State :=
  { scores := fun gid =>
      if gid ∈ (["D1G1", "D1G2", "D1G3", "D1G4", "D1G5", "D1G6", "D1G7",
          "D1G8", "D2G1", "D2G2", "D2G3", "D2G4"] : List String)
      then some rcWon else none }

/-- Witness for C3: with every Day 1 record decided, Day 2 is open. -/
theorem computeLockedDays_gates_witness :
    (computeLockedDays bracket0 stFull).day1 = false ∧
    (computeLockedDays bracket0 stFull).day2 = false := by
  have h := computeLockedDays_gates (getTeamsFromAdmin []) {} bracket0
    bracket0_eq stFull
  refine ⟨h.1, h.2.1.mpr ?_⟩
  intro gid hg
  refine ⟨rcWon, 2, 1, ?_, by decide, by decide, by norm_num⟩
  fin_cases hg <;> decide

/-! ### Claim C4: what an undecided Day 1 record locks -/

/-- C4 (amended). For every built bracket and ledger in which some Day 1
game has a score record whose entries do not decide a winner — an entry
that does not coerce to a finite number, or two entries coercing to
equal values (the tie case; note that the empty entry coerces to 0, so a
record with one missing entry and one positive entry is decided, not
undecided) — Day 2 is locked and getWinner for that game is undecided.
Day 3 is not thereby locked: its gate depends only on the Day 2
records. -/
theorem day1_gap_locks_day2 (teams : List String) (cfg : Config)
    (G : Games) (_hG : buildGames teams cfg = some G) (st : State)
    (g : Game) (hg : g ∈ G.day1) (r : ScoreRec)
    (hr : st.scores g.id = some r)
    (hbad : toNum r.a = none ∨ toNum r.b = none ∨
      ∃ q : ℚ, toNum r.a = some q ∧ toNum r.b = some q) :
    (computeLockedDays G st).day2 = true ∧ getWinner g.id st = none := by
  have hgc : gameComplete g.id st = false := by
    rcases hbad with ha | hb | ⟨q, ha, hb⟩
    · simp [gameComplete, recComplete, hr, ha]
    · cases hA : toNum r.a <;> simp [gameComplete, recComplete, hr, hA, hb]
    · simp [gameComplete, recComplete, hr, ha, hb]
  have hday : isDayComplete G.day1 st = false := by
    cases hd : isDayComplete G.day1 st with
    | false => rfl
    | true =>
      rw [isDayComplete] at hd
      have h2 := List.all_eq_true.mp hd g hg
      rw [hgc] at h2
      cases h2
  refine ⟨by simp [computeLockedDays, hday], ?_⟩
  rcases hbad with ha | hb | ⟨q, ha, hb⟩
  · simp [getWinner, hr, ha]
  · cases hA : toNum r.a <;> simp [getWinner, hr, hA, hb]
  · simp [getWinner, hr, ha, hb]

/-- A tied record, as produced by typing 5 and 5 into one game. -/
def rcTie : ScoreRec :=
  { teamA := "T1", teamB := "T2", a := .estr "5", b := .estr "5" }

/-- A ledger whose only record is the tie on the first Day 1 game. -/
def stTie : State :=
  { scores := fun gid => if gid = "D1G1" then some rcTie else none }

/-- The first Day 1 game of the default bracket. -/
def g1 : Game :=
  { id := "D1G1", day := "Day 1", timeSlot := "Morning", hour := "8:00 AM",
    court := "Dolphins Court", teamA := some "Team 1",
    teamB := some "Team 2", dependsOn := [], label := none }

/-- Witness for the amended C4: the tied record (5, 5) keeps Day 2
locked and its winner undecided. -/
theorem day1_gap_locks_day2_witness :
    stTie.scores "D1G1" = some rcTie ∧
    toNum rcTie.a = some 5 ∧ toNum rcTie.b = some 5 ∧
    (computeLockedDays bracket0 stTie).day2 = true ∧
    getWinner "D1G1" stTie = none := by
  have h := day1_gap_locks_day2 (getTeamsFromAdmin []) {} bracket0
    bracket0_eq stTie g1 (by decide) rcTie (by decide)
    (Or.inr (Or.inr ⟨5, by decide, by decide⟩))
  exact ⟨by decide, by decide, by decide, h.1, h.2⟩

/-- A ledger refuting C4 as stated: the first Day 1 record has a missing
entry (the empty string, which the spec calls no value entered), every
other Day 1 record and all four Day 2 records are decided. -/
def stC4 : State :=
  { scores := fun gid =>
      if gid = "D1G1" then
        some { teamA := "T1", teamB := "T2", a := .estr "", b := .estr "5" }
      else if gid ∈ (["D1G2", "D1G3", "D1G4", "D1G5", "D1G6", "D1G7",
          "D1G8"] : List String) then
        some { teamA := "X", teamB := "Y", a := .estr "3", b := .estr "1" }
      else if gid ∈ (["D2G1", "D2G2", "D2G3", "D2G4"] : List String) then
        some { teamA := "X", teamB := "Y", a := .estr "2", b := .estr "0" }
      else none }

/-- Counterexample to C4 as stated: a Day 1 record with a missing value
exists, yet Day 2 and Day 3 are both open and getWinner resolves a
winner, because the empty entry coerces to 0; moreover Day 3 would stay
open even under the tie ledger stTie with the same Day 2 records, since
the Day 3 gate never inspects Day 1. -/
theorem day1_gap_counterexample :
    stC4.scores "D1G1" =
      some { teamA := "T1", teamB := "T2", a := .estr "", b := .estr "5" } ∧
    (computeLockedDays bracket0 stC4).day2 = false ∧
    (computeLockedDays bracket0 stC4).day3 = false ∧
    getWinner "D1G1" stC4 = some "T2" := by
  decide

/-! ### Claim C5: flipping and clearing a Day 1 score -/

/-- C5. For every built bracket and ledger with Day 2 open: replacing
the record of any one already-decided Day 1 game by any record whose
entries coerce to distinct finite values keeps Day 2 open, and clearing
the record of any one Day 1 game locks Day 2. -/
theorem day2_open_flip_clear (teams : List String) (cfg : Config)
    (G : Games) (_hG : buildGames teams cfg = some G) (st : State)
    (hopen : (computeLockedDays G st).day2 = false)
    (g : Game) (hg : g ∈ G.day1) (w : String)
    (_hdecided : getWinner g.id st = some w)
    (r : ScoreRec) (x y : ℚ) (hx : toNum r.a = some x)
    (hy : toNum r.b = some y) (hxy : x ≠ y) :
    (computeLockedDays G (setScore st g.id (some r))).day2 = false ∧
    (computeLockedDays G (setScore st g.id none)).day2 = true := by
  have h1 : isDayComplete G.day1 st = true := by
    simpa [computeLockedDays] using hopen
  have hall := List.all_eq_true.mp (by rw [isDayComplete] at h1; exact h1)
  constructor
  · have hc : isDayComplete G.day1 (setScore st g.id (some r)) = true := by
      rw [isDayComplete]
      apply List.all_eq_true.mpr
      intro g' hg'
      by_cases he : g'.id = g.id
      · simp [gameComplete, setScore, he, recComplete, hx, hy, hxy]
      · have hq := hall g' hg'
        simpa [gameComplete, setScore, he] using hq
    simp [computeLockedDays, hc]
  · have hc : isDayComplete G.day1 (setScore st g.id none) = false := by
      cases hd : isDayComplete G.day1 (setScore st g.id none) with
      | false => rfl
      | true =>
        rw [isDayComplete] at hd
        have h2 := List.all_eq_true.mp hd g hg
        simp [gameComplete, setScore] at h2
    simp [computeLockedDays, hc]

/-- The replacement record for the C5 witness. -/
def rcNew : ScoreRec :=
  { teamA := "A", teamB := "B", a := .estr "7", b := .estr "3" }

/-- Witness for C5 on the full ledger. -/
theorem day2_open_flip_clear_witness :
    (computeLockedDays bracket0 stFull).day2 = false ∧
    (computeLockedDays bracket0 (setScore stFull "D1G1" (some rcNew))).day2
      = false ∧
    (computeLockedDays bracket0 (setScore stFull "D1G1" none)).day2
      = true := by
  have h := day2_open_flip_clear (getTeamsFromAdmin []) {} bracket0
    bracket0_eq stFull (by decide) g1 (by decide) "A" (by decide)
    rcNew 7 3 (by decide) (by decide) (by norm_num)
  exact ⟨by decide, h.1, h.2⟩

/-! ### Claim C8: reset clears exactly the ledger -/

/-- C8. The explicit reset removes every score record and nothing else:
the bracket value (its 15 games, team assignments and kickoff times) is
untouched, and afterwards Day 1 is open while Day 2 and Day 3 are
locked. -/
theorem resetScores_clears_and_locks (sess : Session) (teams : List String)
    (cfg : Config) (hG : buildGames teams cfg = some sess.games) :
    (resetScores sess).games = sess.games ∧
    (∀ gid, (resetScores sess).state.scores gid = none) ∧
    computeLockedDays (resetScores sess).games (resetScores sess).state =
      { day1 := false, day2 := true, day3 := true } := by
  obtain ⟨p1, p2, p3, p4, p5, p6, -, -, -, -, -, -, hB⟩ := buildGames_some_inv hG
  refine ⟨rfl, fun gid => rfl, ?_⟩
  show computeLockedDays sess.games { scores := fun _ => none } = _
  rw [hB]
  simp [computeLockedDays, isDayComplete, bracketOf, day1GameAt, range8,
    gameComplete]

/-- The default session for the C8 witness. -/
def sess0 : Session :=
  { games := bracket0, state := stFull }

/-- Witness for C8. -/
theorem resetScores_clears_and_locks_witness :
    (resetScores sess0).games = bracket0 ∧
    (resetScores sess0).state.scores "D1G1" = none ∧
    computeLockedDays (resetScores sess0).games (resetScores sess0).state =
      { day1 := false, day2 := true, day3 := true } := by
  have h := resetScores_clears_and_locks sess0 (getTeamsFromAdmin []) {}
    bracket0_eq
  exact ⟨h.1, h.2.1 "D1G1", h.2.2⟩

/-! ### Claim C6: validation in the submit endpoint -/

/-- C6 (amended). The POST branch of the scores endpoint rejects, with
the specific reason, a missing or empty gameId, a value that does not
coerce to a finite number, and a tie of the two coerced values; every
other pair — including negative and non-integer finite values, which
the endpoint never checks for — is accepted and upserted to the
ledger. -/
theorem handlerPost_validation (req : SubmitReq) :
    ((req.gameId = none ∨ req.gameId = some "") →
      handlerPost req = .badRequest "Missing gameId") ∧
    ∀ gid : String, req.gameId = some gid → gid ≠ "" →
      ((toNum req.a = none ∨ toNum req.b = none) →
        handlerPost req = .badRequest "Scores must be numbers") ∧
      ∀ x y : ℚ, toNum req.a = some x → toNum req.b = some y →
        (x = y → handlerPost req = .badRequest "No ties allowed") ∧
        (x ≠ y → handlerPost req = .ok gid x y) := by
  constructor
  · rintro (h | h) <;> simp [handlerPost, h]
  · intro gid hgid hne
    constructor
    · rintro (ha | hb)
      · simp [handlerPost, hgid, hne, ha]
      · cases hA : toNum req.a <;> simp [handlerPost, hgid, hne, hA, hb]
    · intro x y hx hy
      exact ⟨fun h => by simp [handlerPost, hgid, hne, hx, hy, h],
             fun h => by simp [handlerPost, hgid, hne, hx, hy, h]⟩

/-- Counterexample to C6 as stated: a negative score is not rejected —
the endpoint upserts it, so the "non-negative integers" condition is not
enforced before the ledger. -/
theorem handlerPost_accepts_negative :
    handlerPost { gameId := some "D1G1", a := .enum (-1), b := .enum 2 } =
      .ok "D1G1" (-1) 2 := by
  decide

/-- Witness for the amended C6: a tied submission is rejected with the
tie reason. -/
theorem handlerPost_validation_witness :
    handlerPost { gameId := some "D3F", a := .estr "5", b := .estr "5" } =
      .badRequest "No ties allowed" := by
  have h := (handlerPost_validation
    { gameId := some "D3F", a := .estr "5", b := .estr "5" }).2 "D3F" rfl
    (by decide)
  exact (h.2 5 5 (by decide) (by decide)).1 rfl

/-! ### Claim C9: the empty entry coerces to 0 -/

/-- C9. For every record whose entry a is the empty string while entry b
coerces to a positive finite number, getWinner resolves the record
teamB — not undecided — because the empty entry coerces to the number 0;
the same record counts its game as complete for day gating. And
symmetrically with the two sides swapped. -/
theorem empty_entry_decides (st : State) (gid : String) (r : ScoreRec)
    (hr : st.scores gid = some r) :
    (∀ q : ℚ, r.a = .estr "" → toNum r.b = some q → 0 < q →
      getWinner gid st = some r.teamB ∧ gameComplete gid st = true) ∧
    (∀ q : ℚ, r.b = .estr "" → toNum r.a = some q → 0 < q →
      getWinner gid st = some r.teamA ∧ gameComplete gid st = true) := by
  have h0 : toNum (Entry.estr "") = some 0 := by decide
  constructor
  · intro q ha hb hq
    constructor
    · simp [getWinner, hr, ha, h0, hb, ne_of_lt hq, hq.not_lt]
    · simp [gameComplete, recComplete, hr, ha, h0, hb, bne_iff_ne,
        ne_of_lt hq]
  · intro q hb ha hq
    constructor
    · simp [getWinner, hr, hb, h0, ha, ne_of_gt hq, hq]
    · simp [gameComplete, recComplete, hr, hb, h0, ha, bne_iff_ne,
        ne_of_gt hq]

/-- A ledger with one half-filled record for the C9 witness. -/
def stC9 : State :=
  { scores := fun gid =>
      if gid = "D2G1" then
        some { teamA := "Team 1", teamB := "Team 3",
               a := .estr "", b := .estr "4" }
      else none }

/-- Witness for C9: entry a empty and entry b equal to 4 resolve the
record teamB and count the game complete. -/
theorem empty_entry_decides_witness :
    getWinner "D2G1" stC9 = some "Team 3" ∧
    gameComplete "D2G1" stC9 = true := by
  have h := (empty_entry_decides stC9 "D2G1"
    { teamA := "Team 1", teamB := "Team 3", a := .estr "", b := .estr "4" }
    (by decide)).1 4 rfl (by decide) (by norm_num)
  exact h

/-! ### Claim C10: whitespace-only team names -/

lemma trimChars_of_all_whitespace {l : List Char}
    (h : ∀ c ∈ l, c.isWhitespace) : trimChars l = [] := by
  rw [trimChars, List.dropWhile_eq_nil_iff.mpr h]
  rfl

lemma resolveTeams_empty_side (g : Game) (st : State)
    (hdep : g.dependsOn = []) (h : g.teamA = some "" ∨ g.teamB = some "") :
    resolveTeamsForGame g st = ("TBD", "TBD") := by
  rcases h with h | h <;> simp [resolveTeamsForGame, truthy, jsOrStr, h, hdep]

/-- C10. If slot i of the supplied team list is a whitespace-only
string, getTeamsFromAdmin keeps it (it is truthy) and trims it to the
empty string rather than substituting the placeholder; in any bracket
then built, every Day 1 game with an empty team name fails the
concrete-teams test of the team resolver, and since its dependsOn list
is empty the resolver returns TBD for both opponents under every ledger;
and the Day 1 game seeded from slot i is such a game. -/
theorem whitespace_team_resolves_tbd (l : List String) (w : String)
    (i : Nat) (hi : i < 16) (hw : l[i]? = some w) (hne : w ≠ "")
    (hws : ∀ c ∈ w.data, c.isWhitespace)
    (cfg : Config) (G : Games)
    (hG : buildGames (getTeamsFromAdmin l) cfg = some G) :
    (getTeamsFromAdmin l)[i]? = some "" ∧
    (∀ g ∈ G.day1, g.teamA = some "" ∨ g.teamB = some "" →
      ∀ st : State, resolveTeamsForGame g st = ("TBD", "TBD")) ∧
    ∃ g ∈ G.day1, (if i % 2 = 0 then g.teamA else g.teamB) = some "" := by
  have hteam : (getTeamsFromAdmin l)[i]? = some "" := by
    rw [getTeamsFromAdmin, List.getElem?_map, List.getElem?_range hi]
    simp [hw, hne, jsTrim, trimChars_of_all_whitespace hws]
  obtain ⟨p1, p2, p3, p4, p5, p6, -, -, -, -, -, -, rfl⟩ := buildGames_some_inv hG
  refine ⟨hteam, ?_, ?_⟩
  · intro g hg hside st
    have hdep : g.dependsOn = [] := by
      simp only [bracketOf, List.mem_map] at hg
      obtain ⟨j, -, rfl⟩ := hg
      rfl
    exact resolveTeams_empty_side g st hdep hside
  · refine ⟨day1GameAt (getTeamsFromAdmin l)
      (strOr cfg.courtName "Dolphins Court") p1 p2 (i / 2), ?_, ?_⟩
    · simp only [bracketOf, List.mem_map]
      exact ⟨i / 2, List.mem_range.mpr (by omega), rfl⟩
    · rcases Nat.even_or_odd i with he | ho
      · have h2 : i % 2 = 0 := Nat.even_iff.mp he
        have hx : i / 2 * 2 = i := by omega
        simp only [day1GameAt, h2, if_pos rfl]
        rw [hx]
        exact hteam
      · have h2 : i % 2 = 1 := Nat.odd_iff.mp ho
        have hx : i / 2 * 2 + 1 = i := by omega
        simp only [day1GameAt, h2]
        rw [if_neg (by omega), hx]
        exact hteam

/-- The empty ledger. -/
def stEmpty0 : State :=
  { scores := fun _ => none }

/-- The bracket built from a team list whose first entry is a single
space. -/
def bracketW : Games :=
  (buildGames (getTeamsFromAdmin [" "]) {}).getD
    { day1 := [], day2 := [], day3 := [] }

/-- Witness for C10 with the whitespace-only name in slot 0. -/
theorem whitespace_team_resolves_tbd_witness :
    (getTeamsFromAdmin [" "])[0]? = some "" ∧
    ∃ g ∈ bracketW.day1, resolveTeamsForGame g stEmpty0 = ("TBD", "TBD") := by
  obtain ⟨h1, h2, g, hgmem, hside⟩ := whitespace_team_resolves_tbd
    [" "] " " 0 (by norm_num) (by decide) (by decide) (by decide)
    {} bracketW (by decide)
  exact ⟨h1, g, hgmem, h2 g hgmem (Or.inl (by simpa using hside)) stEmpty0⟩

/-! ### Claim C7: what the clock parser accepts -/

lemma takeWhile_append_cons {p : Char → Bool} (l1 : List Char) (c : Char)
    (l2 : List Char) (h1 : ∀ x ∈ l1, p x = true) (hc : p c = false) :
    (l1 ++ c :: l2).takeWhile p = l1 ∧ (l1 ++ c :: l2).dropWhile p = c :: l2 := by
  induction l1 with
  | nil => simp [List.takeWhile_cons, List.dropWhile_cons, hc]
  | cons a l ih =>
    have ha := h1 a (by simp)
    have hr := ih fun x hx => h1 x (by simp [hx])
    constructor
    · simp [List.takeWhile_cons, ha, hr.1]
    · simp [List.dropWhile_cons, ha, hr.2]

lemma dropWhile_append_all {p : Char → Bool} (l1 l2 : List Char)
    (h : ∀ x ∈ l1, p x = true) :
    (l1 ++ l2).dropWhile p = l2.dropWhile p := by
  induction l1 with
  | nil => rfl
  | cons a l ih =>
    have ha := h a (by simp)
    simp [List.dropWhile_cons, ha, ih fun x hx => h x (by simp [hx])]

/-- The shape of strings the clock regex accepts, stated as the spec
would: after trimming, one or two digits, a colon, exactly two digits,
optional whitespace and a case-insensitive meridiem — with no range
restriction on the hour or minute digits. -/
def ClockShape (s : String) : Prop :=
  ∃ (hd md ws : List Char) (x y : Char),
    trimChars s.data = hd ++ ':' :: (md ++ ws ++ [x, y]) ∧
    (hd.length = 1 ∨ hd.length = 2) ∧ (∀ c ∈ hd, c.isDigit) ∧
    md.length = 2 ∧ (∀ c ∈ md, c.isDigit) ∧
    (∀ c ∈ ws, c.isWhitespace) ∧
    (x = 'A' ∨ x = 'a' ∨ x = 'P' ∨ x = 'p') ∧ (y = 'M' ∨ y = 'm')

lemma parseTime12h_isSome_eq (s : String) :
    (parseTime12h s).isSome = (matchClock s).isSome := by
  cases h : matchClock s with
  | none => simp [parseTime12h, h]
  | some v =>
    obtain ⟨h12, mi, pm⟩ := v
    simp [parseTime12h, h]

/-- Counterexample to C7 as stated: hour 13 and minute 99 are outside
the ranges named by the claim, yet the parser accepts the string and
returns 25 hours and 99 minutes after the meridiem adjustment. -/
theorem parseTime12h_accepts_out_of_range :
    parseTime12h "13:99 PM" = some (25, 99) := by
  decide

/-- C7 (amended). The clock parser accepts exactly the strings whose
trimmed form is one or two digits, a colon, exactly two digits, optional
whitespace and a case-insensitive meridiem; it performs no range check,
so any 1-or-2-digit hour and any 2-digit minute are accepted, and it
fails (throws) exactly on strings outside this pattern. -/
theorem parseTime12h_accepts_iff_shape (s : String) :
    (parseTime12h s).isSome = true ↔ ClockShape s := by
  rw [parseTime12h_isSome_eq]
  constructor
  · intro h
    unfold matchClock at h
    split at h
    · simp at h
    · rename_i hlen
      split at h
      case h_2 => simp at h
      case h_1 c1 c2 r3 heq =>
        split at h
        case isFalse => simp at h
        case isTrue hdig =>
          split at h
          case h_2 => simp at h
          case h_1 x y heq2 =>
            split at h
            case isFalse => simp at h
            case isTrue hy =>
              have hx : x = 'A' ∨ x = 'a' ∨ x = 'P' ∨ x = 'p' := by
                by_contra hc
                push_neg at hc
                obtain ⟨h1, h2, h3, h4⟩ := hc
                rw [if_neg (by tauto), if_neg (by tauto)] at h
                simp at h
              have hr3 : r3 = r3.takeWhile Char.isWhitespace ++ [x, y] := by
                conv_lhs => rw [← List.takeWhile_append_dropWhile
                  Char.isWhitespace r3]
                rw [heq2]
              refine ⟨(trimChars s.data).takeWhile Char.isDigit, [c1, c2],
                r3.takeWhile Char.isWhitespace, x, y, ?_, ?_,
                fun c hc => List.mem_takeWhile_imp hc, rfl, ?_,
                fun c hc => List.mem_takeWhile_imp hc, hx, hy⟩
              · conv_lhs => rw [← List.takeWhile_append_dropWhile
                  Char.isDigit (trimChars s.data)]
                rw [heq]
                conv_lhs => rw [hr3]
                simp
              · push_neg at hlen
                omega
              · intro c hc
                simp at hc
                rcases hc with rfl | rfl
                · exact hdig.1
                · exact hdig.2
  · rintro ⟨hd, md, ws, x, y, hdec, hlen, hdig, hmdlen, hmddig, hwsmem,
      hx, hy⟩
    obtain ⟨c1, c2, rfl⟩ := List.length_eq_two.mp hmdlen
    have h1 := takeWhile_append_cons hd ':'
      ([c1, c2] ++ ws ++ [x, y]) hdig (by decide)
    rw [← hdec] at h1
    have hc1 : c1.isDigit = true := hmddig c1 (by simp)
    have hc2 : c2.isDigit = true := hmddig c2 (by simp)
    have hxws : x.isWhitespace = false := by
      rcases hx with rfl | rfl | rfl | rfl <;> decide
    have hdws : (ws ++ [x, y]).dropWhile Char.isWhitespace = [x, y] := by
      rw [dropWhile_append_all _ _ hwsmem]
      simp [List.dropWhile_cons, hxws]
    unfold matchClock
    rw [h1.1, h1.2]
    rw [if_neg (by rcases hlen with h | h <;> omega)]
    rcases hx with rfl | rfl | rfl | rfl <;>
      simp [hc1, hc2, hdws, hy]

/-- Witness for the amended C7: a padded lowercase clock string is
accepted. -/
theorem parseTime12h_accepts_iff_shape_witness :
    (parseTime12h " 7:30 pm ").isSome = true := by
  apply (parseTime12h_accepts_iff_shape " 7:30 pm ").mpr
  exact ⟨['7'], ['3', '0'], [' '], 'p', 'm', by decide, by decide,
    by decide, by decide, by decide, by decide, by decide, by decide⟩
